import Mathlib

/-!
Verification of the duplex audio streaming session manager of Mandarin-Talk
(`src/services/liveApiService.ts`) and its audio codec utilities
(`src/utils/audioUtils.ts`).

Strings are embedded as `List Char`; JavaScript numbers as `ℚ` (the
floating-point operations performed here — clamping, scaling by powers of
two and small integers, convex interpolation of 32-bit samples in 64-bit
arithmetic — are exact on the values that occur, so the rational model is
faithful); possibly non-finite 32-bit samples as `Option ℚ` with `none`
standing for NaN/±Infinity.  Fallible operations return `Option`.
-/

/-- Strings are embedded as lists of characters. -/
abbrev Str := List Char

/-- Substring test `containsSub n h`: JavaScript `h.includes(n)` — `n` occurs as a
contiguous substring of `h`. -/
def containsSub (n : Str) : Str → Bool
  | [] => n.isEmpty
  | c :: t => n.isPrefixOf (c :: t) || containsSub n t

/-- Whitespace test used by `String.prototype.trim`. -/
def isWsChar (c : Char) : Bool := c.isWhitespace

/-- JavaScript `s.trim()`: drop leading and trailing whitespace. -/
def trimWs (s : Str) : Str :=
  ((s.dropWhile isWsChar).reverse.dropWhile isWsChar).reverse

/-! ### Base64 (the browser's `btoa`/`atob` on binary strings)

`bytesToBase64` builds a binary string whose char codes are the bytes and
applies `btoa`; `base64ToBytes` applies `atob` and reads the char codes
back.  Both composites therefore act directly on byte lists.  `atob` throws
on malformed input; the model returns `none` there (only canonical encoder
output matters for the round-trip).
-/

/-- The 64-character base64 alphabet, in index order. -/
def b64Alphabet : Str :=
  ("ABCDEFGHIJKLMNOPQRSTUVWXYZabcdefghijklmnopqrstuvwxyz0123456789+/").data

/-- Character for a 6-bit value. -/
def b64Char (n : Nat) : Char := b64Alphabet.getD n 'A'

/-- The 6-bit value of a base64 character; `none` for a character outside the
alphabet. -/
def b64Index (c : Char) : Option Nat :=
  let i := b64Alphabet.indexOf c
  if i < 64 then some i else none

/-- Model of `btoa` on a list of char codes (each < 256): groups of three bytes
become four alphabet characters; a final group of one or two bytes is
padded with `=`. -/
def b64EncodeCodes : List Nat → Str
  | [] => []
  | [a] => [b64Char (a / 4), b64Char (a % 4 * 16), '=', '=']
  | [a, b] => [b64Char (a / 4), b64Char (a % 4 * 16 + b / 16),
               b64Char (b % 16 * 4), '=']
  | a :: b :: c :: rest =>
      b64Char (a / 4) :: b64Char (a % 4 * 16 + b / 16) ::
      b64Char (b % 16 * 4 + c / 64) :: b64Char (c % 64) ::
      b64EncodeCodes rest

/-- Model of `atob`, producing the char codes of the binary string: consumes four
characters at a time; `=` padding is legal only in the final group. -/
def b64DecodeChars : Str → Option (List Nat)
  | [] => some []
  | c1 :: c2 :: c3 :: c4 :: rest =>
      match b64Index c1, b64Index c2 with
      | some w, some x =>
          if c3 = '=' then
            if c4 = '=' ∧ rest = [] then some [w * 4 + x / 16] else none
          else
            match b64Index c3 with
            | some y =>
                if c4 = '=' then
                  if rest = [] then some [w * 4 + x / 16, x % 16 * 16 + y / 4]
                  else none
                else
                  match b64Index c4 with
                  | some z =>
                      (b64DecodeChars rest).map
                        (fun tail => (w * 4 + x / 16) :: (x % 16 * 16 + y / 4) ::
                                     (y % 4 * 64 + z) :: tail)
                  | none => none
            | none => none
      | _, _ => none
  | _ => none

/-- Function `bytesToBase64` of `src/utils/audioUtils.ts`: build the binary string
byte by byte (`String.fromCharCode` is the identity on codes < 256), then
`btoa`. -/
def bytesToBase64 (bytes : List Nat) : Str := b64EncodeCodes bytes

/-- Function `base64ToBytes` of `src/utils/audioUtils.ts`: `atob`, then read each
char code into a byte array; `none` when `atob` throws. -/
def base64ToBytes (s : Str) : Option (List Nat) := b64DecodeChars s

/-! ### Audio sample utilities (`src/utils/audioUtils.ts`) -/

/-- A 32-bit float sample: `some q` when finite, `none` for NaN/±Infinity
(the code only ever distinguishes these two classes, via
`Number.isFinite`). -/
abbrev FSample := Option ℚ

/-- Multiplication of a possibly non-finite sample by a finite scalar
(non-finite absorbs, as every non-finite float product here is
non-finite). -/
def fmul : FSample → ℚ → FSample
  | some a, t => some (a * t)
  | none, _ => none

/-- Addition of possibly non-finite samples (non-finite absorbs). -/
def fadd : FSample → FSample → FSample
  | some a, some b => some (a + b)
  | _, _ => none

/-- Function `downsampleTo16k` of `src/utils/audioUtils.ts`: identity at 16 kHz,
otherwise linear interpolation at ratio `fromSampleRate / 16000`; an
out-of-range read yields `undefined`, whose arithmetic is NaN, and the
final `Number.isFinite` check turns any non-finite result into 0. -/
def downsampleTo16k (buffer : List FSample) (fromSampleRate : ℚ) : List FSample :=
  if buffer.length = 0 then []
  else if fromSampleRate = 16000 then buffer
  else
    let ratio := fromSampleRate / 16000
    let newLength := (⌈(buffer.length : ℚ) / ratio⌉).toNat
    (List.range newLength).map (fun i =>
      let offset : ℚ := (i : ℚ) * ratio
      let index := (⌊offset⌋).toNat
      let nextIndex := min ((⌈offset⌉).toNat) (buffer.length - 1)
      let t := offset - (⌊offset⌋ : ℚ)
      let val := fadd (fmul (buffer.getD index none) (1 - t))
                      (fmul (buffer.getD nextIndex none) t)
      match val with
      | some q => some q
      | none => some 0)

/-- Function `concatenateFloat32Buffers` of `src/utils/audioUtils.ts`: one
contiguous buffer holding the input buffers back to back. -/
def concatenateFloat32Buffers (buffers : List (List FSample)) : List FSample :=
  buffers.flatten

/-- JavaScript truncation toward zero (the integer step of `ToInt16`). -/
def truncQ (q : ℚ) : Int := if 0 ≤ q then ⌊q⌋ else -⌊-q⌋

/-- Wrap of an integer into the two's-complement 16-bit range, as storing
into an `Int16Array` does. -/
def int16Wrap (n : Int) : Int := (n + 32768) % 65536 - 32768

/-- The per-sample body of `createPcmBlob`'s loop: non-finite samples are
replaced by 0, finite ones clamped to `[-1, 1]`, scaled by `0x8000`
(negative) or `0x7FFF` (non-negative), and stored as an Int16. -/
def i16OfSample (s : FSample) : Int :=
  let v : ℚ := match s with
    | none => 0
    | some q => q
  let c := max (-1) (min 1 v)
  let scaled : ℚ := if c < 0 then c * 32768 else c * 32767
  int16Wrap (truncQ scaled)

/-- The Int16 array built by `createPcmBlob`. -/
def pcmInt16 (data : List FSample) : List Int := data.map i16OfSample

/-- Little-endian byte pair of a 16-bit value, as a `Uint8Array` view of an
`Int16Array` buffer exposes it. -/
def int16ToBytesLE (n : Int) : List Nat :=
  let u := ((n % 65536 + 65536) % 65536).toNat
  [u % 256, u / 256]

/-- The `Blob` envelope returned by `createPcmBlob`. -/
structure PcmBlob where
  data : Str
  mimeType : Str
deriving DecidableEq

/-- Function `createPcmBlob` of `src/utils/audioUtils.ts`. -/
def createPcmBlob (data : List FSample) : PcmBlob :=
  { data := bytesToBase64 (((pcmInt16 data).map int16ToBytesLE).flatten)
    mimeType := ("audio/pcm;rate=16000").data }

/-! ### Session manager (`src/services/liveApiService.ts`)

The class state is a record; each handler is a function from state to
state plus an ordered list of observable outputs (callback invocations,
timer registrations, resource requests).  Object references that the code
only tests for presence are booleans; the microphone stream with its
tracks is `mediaStreamActive`.
-/

/-- Connection states reported through `onStateChange`. -/
inductive CState
  | DISCONNECTED
  | CONNECTING
  | CONNECTED
  | ERROR
deriving DecidableEq

/-- A scheduled playback voice: its start offset and duration on the
output clock (one `AudioBufferSourceNode` in the `sources` set). -/
abbrev Voice := ℚ × ℚ

/-- Verbatim tool-call argument payload (a JSON object as key/value
pairs). -/
abbrev Args := List (Str × Str)

/-- One entry of `toolCall.functionCalls` in an inbound message. -/
structure FunctionCall where
  id : Str
  name : Str
  args : Args
deriving DecidableEq

/-- One acknowledgment record pushed into `functionResponses`. -/
structure FunctionResponse where
  id : Str
  name : Str
  result : Str
deriving DecidableEq

/-- One action appended to the serialized uplink queue
(`audioSendQueue`): an audio chunk via `sendRealtimeInput`, or the batch
of acknowledgment records of one message via `sendToolResponse`. -/
inductive SendItem
  | audioChunk (blob : PcmBlob)
  | toolResponses (rs : List FunctionResponse)
deriving DecidableEq

/-- Observable outputs of a handler, in emission order. -/
inductive Out
  | stateChange (s : CState)
  | errorMsg (m : Str)
  | subtitle (a : Args)
  | feedback (a : Args)
  | userTranscript (t : Str)
  | scheduleReconnect (scenario : Option Str) (rate : ℚ)
  | playback (start dur : ℚ)
  | stopVoice (v : Voice)
  | micRequest
deriving DecidableEq

/-- The capture accumulator: `audioBufferChunks` with
`currentBufferSize`. -/
structure AccState where
  chunks : List (List FSample)
  size : Nat
deriving DecidableEq

/-- The fields of `LiveApiService`. -/
structure MgrState where
  sessionActive : Bool
  isConnected : Bool
  isDisconnecting : Bool
  hasReportedFatalError : Bool
  isReportingError : Bool
  internalErrorRetryCount : Nat
  lastScenarioInstruction : Option Str
  lastSpeakingRate : ℚ
  currentInputTranscription : Str
  acc : AccState
  audioSendQueue : List SendItem
  nextStartTime : ℚ
  sources : List Voice
  mediaStreamActive : Bool
  processorActive : Bool
  sourceNodeActive : Bool
  inputGainActive : Bool
  isProcessorRunning : Bool
  animationFrameActive : Bool
  inputCtxActive : Bool
  outputCtxActive : Bool
  outputAnalyserActive : Bool
deriving DecidableEq

/-- Constant `MAX_INTERNAL_ERROR_RETRIES`. -/
def MAX_INTERNAL_ERROR_RETRIES : Nat := 1

/-- Constant `BUFFER_THRESHOLD`: minimum accumulated sample count before an uplink
chunk is emitted. -/
def BUFFER_THRESHOLD : Nat := 4096

/-- Method `stop()`: lock the state, tear down the audio graph, release the
microphone, stop every live voice, drop the session handle, close the
sinks, clear the accumulator, reset the uplink queue; report
`DISCONNECTED` only when no fatal error was reported. -/
def stop (st : MgrState) : MgrState × List Out :=
  let st' := { st with
    isDisconnecting := true, isConnected := false, isProcessorRunning := false,
    processorActive := false, inputGainActive := false, sourceNodeActive := false,
    mediaStreamActive := false, sources := [], sessionActive := false,
    animationFrameActive := false, inputCtxActive := false, outputCtxActive := false,
    acc := ⟨[], 0⟩, audioSendQueue := [] }
  (st', st.sources.map Out.stopVoice ++
        if st.hasReportedFatalError then [] else [Out.stateChange CState.DISCONNECTED])

/-- Method `handleFatalError`: latch, report once, transition to `ERROR`, tear
down. -/
def handleFatalError (msg : Str) (st : MgrState) : MgrState × List Out :=
  if st.hasReportedFatalError then (st, [])
  else
    let st1 := { st with hasReportedFatalError := true, isDisconnecting := true }
    let r := stop st1
    (r.1, [Out.errorMsg msg, Out.stateChange CState.ERROR] ++ r.2)

/-- The fatal message of an exhausted internal-error retry budget. -/
def internalFatalMsg : Str :=
  ("Session interrupted (Internal Error). Please restart.").data

/-- The advisory message of a recovery attempt. -/
def hiccupMsg : Str := ("Session hiccup detected. Reconnecting...").data

/-- Method `handleInternalErrorRecovery`: escalate to fatal once the retry
counter reaches the maximum; otherwise count the retry, tear down, clear
the latches, advise the caller, go back to `CONNECTING`, and register the
500 ms timer that will call `connect` with the remembered scenario and
rate. -/
def handleInternalErrorRecovery (st : MgrState) : MgrState × List Out :=
  if st.internalErrorRetryCount ≥ MAX_INTERNAL_ERROR_RETRIES then
    handleFatalError internalFatalMsg st
  else
    let st1 := { st with internalErrorRetryCount := st.internalErrorRetryCount + 1 }
    let r := stop st1
    let st3 := { r.1 with isDisconnecting := false, hasReportedFatalError := false,
                          isReportingError := false }
    (st3, r.2 ++ [Out.errorMsg hiccupMsg, Out.stateChange CState.CONNECTING,
                  Out.scheduleReconnect st.lastScenarioInstruction st.lastSpeakingRate])

/-- The synchronous prefix of `connect(scenarioInstruction, speakingRate)`
up to the first suspension point (`getUserMedia`): the reentrancy guard,
the `CONNECTING` notification, the flag/counter resets and the
remembering of scenario and rate; `micRequest` marks the microphone
acquisition being initiated. -/
def connectStart (scenario : Option Str) (rate : ℚ) (st : MgrState) :
    MgrState × List Out :=
  if st.sessionActive || st.isConnected then (st, [])
  else
    let st' := { st with
      isConnected := true, isDisconnecting := false,
      hasReportedFatalError := false, isReportingError := false,
      internalErrorRetryCount := 0, lastScenarioInstruction := scenario,
      lastSpeakingRate := rate }
    (st', [Out.stateChange CState.CONNECTING, Out.micRequest])

/-- The body of the 500 ms recovery timer: re-invoke `connect` with the
captured scenario and rate unless a fatal error arrived meanwhile or a
session is already up. -/
def recoveryTimerFire (scenario : Option Str) (rate : ℚ) (st : MgrState) :
    MgrState × List Out :=
  if !st.hasReportedFatalError && !st.isConnected then connectStart scenario rate st
  else (st, [])

/-- The transient-network signature filter of the `onerror` callback. -/
def isTransientMsg (m : Str) : Bool :=
  containsSub (("Network error").data) m || containsSub (("Failed to fetch").data) m ||
  containsSub (("WebSocket").data) m

/-- The `onerror` callback of the live session, given the derived error
string: guard against re-entry, ignore transient-network signatures,
route internal-fault signatures to bounded recovery, and treat everything
else as fatal. -/
def onSessionError (msg : Str) (st : MgrState) : MgrState × List Out :=
  if st.isDisconnecting || st.hasReportedFatalError || st.isReportingError then (st, [])
  else
    let st1 := { st with isReportingError := true }
    if isTransientMsg msg then ({ st1 with isReportingError := false }, [])
    else if containsSub (("Internal error").data) msg then
      handleInternalErrorRecovery st1
    else
      handleFatalError ((("Connection error: ").data) ++ msg) st1

/-- The `onaudioprocess` body of `startAudioInputStreaming`, acting on
the accumulator (the guard on `isConnected`/`isProcessorRunning`/
`isDisconnecting` having passed): downsample the frame, append it, and
once the accumulated size reaches `BUFFER_THRESHOLD` merge, reset and
emit the merged buffer (which then goes through `createPcmBlob` onto the
uplink queue); an empty merge is discarded. -/
def processFrame (sampleRate : ℚ) (frame : List FSample) (acc : AccState) :
    AccState × Option (List FSample) :=
  let ds := downsampleTo16k frame sampleRate
  let chunks := acc.chunks ++ [ds]
  let size := acc.size + ds.length
  if size ≥ BUFFER_THRESHOLD then
    let merged := concatenateFloat32Buffers chunks
    if merged.length = 0 then (⟨[], 0⟩, none) else (⟨[], 0⟩, some merged)
  else (⟨chunks, size⟩, none)

/-- Run a sequence of capture frames through `processFrame`, collecting
the emitted merged buffers in order. -/
def runFrames (sampleRate : ℚ) : List (List FSample) → AccState →
    AccState × List (List FSample)
  | [], acc => (acc, [])
  | f :: fs, acc =>
      let r1 := processFrame sampleRate f acc
      let r2 := runFrames sampleRate fs r1.1
      (r2.1, r1.2.toList ++ r2.2)

/-- An inbound `LiveServerMessage`, reduced to the fields the handler
reads. -/
structure ServerMessage where
  inputTranscription : Option Str
  turnComplete : Bool
  toolCall : Option (List FunctionCall)
  audioData : Option Str
  interrupted : Bool

/-- The acknowledgment record built for one tool invocation. -/
def mkAck (fc : FunctionCall) : FunctionResponse :=
  { id := fc.id, name := fc.name, result := ("ok").data }

/-- Callback fired for one tool invocation: subtitles and pronunciation
feedback are delivered verbatim, any other name only gets its
acknowledgment. -/
def toolEvent (fc : FunctionCall) : List Out :=
  if fc.name = ("update_subtitles").data then [Out.subtitle fc.args]
  else if fc.name = ("provide_pronunciation_feedback").data then [Out.feedback fc.args]
  else []

/-- Step 1 of `handleMessage`: append an inbound transcription fragment,
and on `turnComplete` flush the trimmed buffer through
`onUserTranscript` when it is non-empty. -/
def transcriptStep (inputTranscription : Option Str) (turnComplete : Bool)
    (cur : Str) : Str × List Out :=
  let t1 := match inputTranscription with
    | some frag => cur ++ frag
    | none => cur
  if turnComplete = true ∧ trimWs t1 ≠ [] then ([], [Out.userTranscript (trimWs t1)])
  else (t1, [])

/-- Step 2 of `handleMessage`: fire the per-invocation callbacks and, when
at least one invocation is present, append the batch of acknowledgment
records to the uplink queue. -/
def toolStep (toolCall : Option (List FunctionCall)) (queue : List SendItem) :
    List SendItem × List Out :=
  match toolCall with
  | some fcs =>
      (if fcs.map mkAck = [] then queue
       else queue ++ [SendItem.toolResponses (fcs.map mkAck)],
       (fcs.map toolEvent).flatten)
  | none => (queue, [])

/-- Step 3 of `handleMessage`: decode an inline audio chunk and schedule
it at `max nextStartTime currentTime`, advancing `nextStartTime` by its
duration and tracking the voice; any decode/view-construction failure is
caught and skipped.  Returns the new `nextStartTime`, the new voice list
and the emitted events. -/
def audioStep (audioData : Option Str) (currentTime : ℚ)
    (outputCtx outputAnalyser connected : Bool) (nextStart : ℚ)
    (srcs : List Voice) : ℚ × List Voice × List Out :=
  match audioData with
  | some d =>
      if d = [] ∨ outputCtx = false ∨ outputAnalyser = false ∨ connected = false then
        (nextStart, srcs, [])
      else match base64ToBytes d with
        | none => (nextStart, srcs, [])
        | some bytes =>
            if bytes = [] ∨ bytes.length % 2 ≠ 0 then (nextStart, srcs, [])
            else
              let dur : ℚ := ((bytes.length / 2 : Nat) : ℚ) / 24000
              let start := max nextStart currentTime
              (start + dur, srcs ++ [(start, dur)], [Out.playback start dur])
  | none => (nextStart, srcs, [])

/-- Method `handleMessage(message)`, with the output sink's `currentTime` passed
in: transcript accumulation and flush, batched tool acknowledgments,
playback scheduling of inline audio, and interruption cleanup, in source
order. -/
def handleMessage (m : ServerMessage) (currentTime : ℚ) (st : MgrState) :
    MgrState × List Out :=
  if st.isDisconnecting || st.hasReportedFatalError then (st, [])
  else
    let tr := transcriptStep m.inputTranscription m.turnComplete
                st.currentInputTranscription
    let tl := toolStep m.toolCall st.audioSendQueue
    let au := audioStep m.audioData currentTime st.outputCtxActive
                st.outputAnalyserActive st.isConnected st.nextStartTime st.sources
    if m.interrupted then
      let st' := { st with
        currentInputTranscription := [], audioSendQueue := tl.1,
        nextStartTime := 0, sources := [], acc := ⟨[], 0⟩ }
      (st', tr.2 ++ tl.2 ++ au.2.2 ++ au.2.1.map Out.stopVoice)
    else
      let st' := { st with
        currentInputTranscription := tr.1, audioSendQueue := tl.1,
        nextStartTime := au.1, sources := au.2.1 }
      (st', tr.2 ++ tl.2 ++ au.2.2)

/-- Recognizer for `onError` callback events. -/
def isErrorOut : Out → Bool
  | Out.errorMsg _ => true
  | _ => false

/-- Recognizer for `onStateChange` events carrying a given state. -/
def isStateOut (s : CState) : Out → Bool
  | Out.stateChange s' => s' = s
  | _ => false

/-- Recognizer for reconnect-timer registrations. -/
def isReconnectOut : Out → Bool
  | Out.scheduleReconnect _ _ => true
  | _ => false

/-- Recognizer for playback-scheduling events. -/
def isPlaybackOut : Out → Bool
  | Out.playback _ _ => true
  | _ => false

/-- Recognizer for subtitle callback events. -/
def isSubtitleOut : Out → Bool
  | Out.subtitle _ => true
  | _ => false

/-! ## Theorems -/

/-- A concrete idle manager state used to instantiate theorems with
hypotheses. -/
def baseState : MgrState :=
  { sessionActive := false, isConnected := false, isDisconnecting := false,
    hasReportedFatalError := false, isReportingError := false,
    internalErrorRetryCount := 0, lastScenarioInstruction := none,
    lastSpeakingRate := 1, currentInputTranscription := [],
    acc := ⟨[], 0⟩, audioSendQueue := [], nextStartTime := 0,
    sources := [], mediaStreamActive := false, processorActive := false,
    sourceNodeActive := false, inputGainActive := false,
    isProcessorRunning := false, animationFrameActive := false,
    inputCtxActive := false, outputCtxActive := false,
    outputAnalyserActive := false }

/-- A concrete live manager state (connected, one active voice). -/
def liveState : MgrState :=
  { baseState with
    sessionActive := true, isConnected := true,
    mediaStreamActive := true, processorActive := true,
    sourceNodeActive := true, inputGainActive := true,
    isProcessorRunning := true, animationFrameActive := true,
    inputCtxActive := true, outputCtxActive := true,
    outputAnalyserActive := true, sources := [(1, 2)], nextStartTime := 3,
    lastScenarioInstruction := some (("scenario").data),
    lastSpeakingRate := 3 / 2 }

/-- C8: `connect()` while a session handle exists or the connected latch
is set returns immediately: same state, no callbacks, no microphone
request, no session opening. -/
theorem connect_reentrancy_noop (st : MgrState) (scenario : Option Str) (rate : ℚ)
    (h : st.sessionActive = true ∨ st.isConnected = true) :
    connectStart scenario rate st = (st, []) := by
  rcases h with h | h <;> simp [connectStart, h]

/-- Witness for C8 at a concrete connected state. -/
theorem connect_reentrancy_noop_witness :
    connectStart none 1 liveState = (liveState, []) :=
  connect_reentrancy_noop liveState none 1 (Or.inl rfl)

/-- C3: `stop()` from any state leaves no microphone lease, no live
voices, no session handle and an empty uplink queue; it stops every live
voice and reports `DISCONNECTED` exactly when no fatal error was
reported, never `ERROR`; and a second consecutive call behaves the same
way. -/
theorem stop_safe_teardown (st : MgrState) :
    (stop st).1.mediaStreamActive = false ∧
    (stop st).1.sources = [] ∧
    (stop st).1.audioSendQueue = [] ∧
    (stop st).1.sessionActive = false ∧
    (stop st).1.isConnected = false ∧
    (stop st).2 = st.sources.map Out.stopVoice ++
      (if st.hasReportedFatalError then [] else [Out.stateChange CState.DISCONNECTED]) ∧
    Out.stateChange CState.ERROR ∉ (stop st).2 ∧
    (stop (stop st).1).1.mediaStreamActive = false ∧
    (stop (stop st).1).1.sources = [] ∧
    (stop (stop st).1).1.audioSendQueue = [] ∧
    (stop (stop st).1).2 =
      (if st.hasReportedFatalError then [] else [Out.stateChange CState.DISCONNECTED]) := by
  refine ⟨rfl, rfl, rfl, rfl, rfl, rfl, ?_, rfl, rfl, rfl, ?_⟩
  · simp only [stop, List.mem_append, List.mem_map]
    rintro (⟨v, -, h⟩ | h)
    · exact Out.noConfusion h
    · split at h <;> simp_all
  · simp [stop]

/-- A non-finite sample encodes to 0. -/
theorem i16OfSample_none : i16OfSample none = 0 := by
  unfold i16OfSample truncQ int16Wrap
  norm_num

/-- Wrapping `int16Wrap` is the identity on the Int16 range. -/
theorem int16Wrap_eq_self (n : Int) (h1 : -32768 ≤ n) (h2 : n ≤ 32767) :
    int16Wrap n = n := by
  unfold int16Wrap; omega

/-- Every encoded sample value lies in the Int16 range. -/
theorem i16OfSample_range (s : FSample) :
    -32768 ≤ i16OfSample s ∧ i16OfSample s ≤ 32767 := by
  unfold i16OfSample
  set v : ℚ := match s with
    | none => 0
    | some q => q with hv
  set c : ℚ := max (-1) (min 1 v) with hc
  have hc1 : -1 ≤ c := le_max_left _ _
  have hc2 : c ≤ 1 := max_le (by norm_num) (min_le_left _ _)
  have key : -32768 ≤ truncQ (if c < 0 then c * 32768 else c * 32767) ∧
      truncQ (if c < 0 then c * 32768 else c * 32767) ≤ 32767 := by
    split
    · next hneg =>
        have hs1 : (-32768 : ℚ) ≤ c * 32768 := by nlinarith
        have hs2 : c * 32768 < 0 := by nlinarith
        unfold truncQ
        rw [if_neg (by exact not_le.mpr hs2)]
        constructor
        · have : ⌊-(c * 32768)⌋ ≤ ⌊(32768 : ℚ)⌋ :=
            Int.floor_le_floor (by linarith)
          have h32 : ⌊(32768 : ℚ)⌋ = 32768 := by norm_num
          omega
        · have : (0 : Int) ≤ ⌊-(c * 32768)⌋ := Int.floor_nonneg.mpr (by linarith)
          omega
    · next hpos =>
        have hge : (0 : ℚ) ≤ c := not_lt.mp hpos
        have hs1 : (0 : ℚ) ≤ c * 32767 := by nlinarith
        have hs2 : c * 32767 ≤ 32767 := by nlinarith
        unfold truncQ
        rw [if_pos hs1]
        constructor
        · have : (0 : Int) ≤ ⌊c * 32767⌋ := Int.floor_nonneg.mpr hs1
          omega
        · have : ⌊c * 32767⌋ ≤ ⌊(32767 : ℚ)⌋ := Int.floor_le_floor hs2
          have h32 : ⌊(32767 : ℚ)⌋ = 32767 := by norm_num
          omega
  rw [int16Wrap_eq_self _ key.1 key.2]
  exact key

/-- C10: `createPcmBlob` is total on every sample list: the encoded Int16
array is as long as the input, every encoded value is in
`[-32768, 32767]`, a non-finite sample encodes to 0, and the envelope's
mime type is the constant `audio/pcm;rate=16000`. -/
theorem createPcmBlob_total_safe (data : List FSample) :
    (pcmInt16 data).length = data.length ∧
    (∀ v ∈ pcmInt16 data, -32768 ≤ v ∧ v ≤ 32767) ∧
    i16OfSample none = 0 ∧
    (∀ i : Fin data.length, data.get i = none →
      (pcmInt16 data).getD i.1 1 = 0) ∧
    (createPcmBlob data).mimeType = ("audio/pcm;rate=16000").data := by
  refine ⟨by simp [pcmInt16], ?_, i16OfSample_none, ?_, rfl⟩
  · intro v hv
    simp only [pcmInt16, List.mem_map] at hv
    obtain ⟨s, -, rfl⟩ := hv
    exact i16OfSample_range s
  · intro i hi
    have hlen : i.1 < (pcmInt16 data).length := by simp [pcmInt16, i.2]
    rw [List.getD_eq_getElem _ _ hlen]
    simp only [pcmInt16]
    rw [List.getElem_map]
    have : data[i.1] = none := by
      rw [← List.get_eq_getElem]; exact hi
    rw [this]
    exact i16OfSample_none

/-- Witness for C10 on a list holding a non-finite sample and out-of-range
finite samples. -/
theorem createPcmBlob_total_safe_witness :
    (pcmInt16 [none, some 2, some (-3), some (1 / 2)]).length = 4 ∧
    ((pcmInt16 [none, some 2, some (-3), some (1 / 2)]).getD 0 1 = 0) ∧
    (∀ v ∈ pcmInt16 [none, some 2, some (-3), some (1 / 2)],
      -32768 ≤ v ∧ v ≤ 32767) := by
  have h := createPcmBlob_total_safe [none, some 2, some (-3), some (1 / 2)]
  refine ⟨h.1, ?_, h.2.1⟩
  have h4 := h.2.2.2.1 ⟨0, by decide⟩ (by decide)
  exact h4

/-- Running `processFrame` on a frame that fills the accumulator to the
threshold: drain and emit the merged buffer. -/
theorem processFrame_emit (rate : ℚ) (f : List FSample) (acc : AccState)
    (h : BUFFER_THRESHOLD ≤ acc.size + (downsampleTo16k f rate).length)
    (hz : (concatenateFloat32Buffers (acc.chunks ++ [downsampleTo16k f rate])).length ≠ 0) :
    processFrame rate f acc =
      (⟨[], 0⟩, some (concatenateFloat32Buffers
        (acc.chunks ++ [downsampleTo16k f rate]))) := by
  unfold processFrame
  simp only [ge_iff_le, h, if_true, hz, if_false]

/-- Running `processFrame` on a frame that leaves the accumulator below the
threshold: retain the downsampled frame. -/
theorem processFrame_keep (rate : ℚ) (f : List FSample) (acc : AccState)
    (h : acc.size + (downsampleTo16k f rate).length < BUFFER_THRESHOLD) :
    processFrame rate f acc =
      (⟨acc.chunks ++ [downsampleTo16k f rate],
        acc.size + (downsampleTo16k f rate).length⟩, none) := by
  unfold processFrame
  rw [if_neg (by omega)]

/-- Single-frame step of the accumulator: sizes stay consistent and below
the threshold, an emitted buffer reaches the threshold, and no sample is
lost — the emitted buffer and the retained accumulator together hold
exactly the old accumulator followed by the downsampled frame. -/
theorem processFrame_step (rate : ℚ) (f : List FSample) (acc : AccState)
    (hinv : acc.size = (acc.chunks.map List.length).sum) :
    ((processFrame rate f acc).1.size =
      (((processFrame rate f acc).1.chunks.map List.length).sum)) ∧
    (processFrame rate f acc).1.size < BUFFER_THRESHOLD ∧
    (∀ e ∈ ((processFrame rate f acc).2).toList, BUFFER_THRESHOLD ≤ e.length) ∧
    (((processFrame rate f acc).2).toList.flatten ++
        (processFrame rate f acc).1.chunks.flatten =
      acc.chunks.flatten ++ downsampleTo16k f rate) := by
  have hmerge : (concatenateFloat32Buffers
      (acc.chunks ++ [downsampleTo16k f rate])).length =
      acc.size + (downsampleTo16k f rate).length := by
    simp [concatenateFloat32Buffers, hinv, List.length_flatten,
      Function.comp]
  by_cases hth : BUFFER_THRESHOLD ≤ acc.size + (downsampleTo16k f rate).length
  · have hz : (concatenateFloat32Buffers
        (acc.chunks ++ [downsampleTo16k f rate])).length ≠ 0 := by
      rw [hmerge]
      have : (0 : Nat) < BUFFER_THRESHOLD := by norm_num [BUFFER_THRESHOLD]
      omega
    rw [processFrame_emit rate f acc hth hz]
    refine ⟨rfl, by norm_num [BUFFER_THRESHOLD], ?_, ?_⟩
    · intro e he
      simp only [Option.toList_some, List.mem_singleton] at he
      subst he
      omega
    · simp [concatenateFloat32Buffers]
  · rw [processFrame_keep rate f acc (by omega)]
    refine ⟨by simp [hinv], ?_, by simp, by simp⟩
    change acc.size + (downsampleTo16k f rate).length < BUFFER_THRESHOLD
    omega

/-- Accumulated invariant over a frame sequence. -/
theorem runFrames_inv (rate : ℚ) (fs : List (List FSample)) (acc : AccState)
    (hinv : acc.size = (acc.chunks.map List.length).sum)
    (hlt : acc.size < BUFFER_THRESHOLD) :
    ((runFrames rate fs acc).1.size =
      (((runFrames rate fs acc).1.chunks.map List.length).sum)) ∧
    (runFrames rate fs acc).1.size < BUFFER_THRESHOLD ∧
    (∀ e ∈ (runFrames rate fs acc).2, BUFFER_THRESHOLD ≤ e.length) ∧
    ((runFrames rate fs acc).2.flatten ++ (runFrames rate fs acc).1.chunks.flatten =
      acc.chunks.flatten ++ (fs.map (fun f => downsampleTo16k f rate)).flatten) := by
  induction fs generalizing acc with
  | nil => exact ⟨hinv, hlt, by simp [runFrames], by simp [runFrames]⟩
  | cons f fs ih =>
      have step := processFrame_step rate f acc hinv
      have rest := ih (processFrame rate f acc).1 step.1 step.2.1
      refine ⟨rest.1, rest.2.1, ?_, ?_⟩
      · intro e he
        simp only [runFrames, List.mem_append] at he
        rcases he with he | he
        · exact step.2.2.1 e he
        · exact rest.2.2.1 e he
      · show (runFrames rate (f :: fs) acc).2.flatten ++ _ = _
        simp only [runFrames]
        rw [List.flatten_append, List.append_assoc, rest.2.2.2,
          ← List.append_assoc, step.2.2.2]
        simp

/-- C2: over any capture-frame sequence from the initial (empty)
accumulator, every buffer handed to the PCM encoder holds at least
`BUFFER_THRESHOLD` samples, the accumulator always ends below the
threshold (it is drained atomically at each emission), and no sample is
dropped or duplicated: the emitted buffers followed by the retained
accumulator are exactly the concatenated downsampled frames. -/
theorem accumulator_threshold_invariant (rate : ℚ) (frames : List (List FSample)) :
    (∀ e ∈ (runFrames rate frames ⟨[], 0⟩).2, BUFFER_THRESHOLD ≤ e.length) ∧
    (runFrames rate frames ⟨[], 0⟩).1.size < BUFFER_THRESHOLD ∧
    ((runFrames rate frames ⟨[], 0⟩).2.flatten ++
        (runFrames rate frames ⟨[], 0⟩).1.chunks.flatten =
      (frames.map (fun f => downsampleTo16k f rate)).flatten) := by
  have h := runFrames_inv rate frames ⟨[], 0⟩ (by simp)
    (by norm_num [BUFFER_THRESHOLD])
  refine ⟨h.2.2.1, h.2.1, ?_⟩
  have := h.2.2.2
  simpa using this

/-- Witness for C2 at a concrete two-frame run at 16 kHz. -/
theorem accumulator_threshold_invariant_witness :
    (∀ e ∈ (runFrames 16000 [[some 0, some 1], [some (1 / 2)]] ⟨[], 0⟩).2,
      BUFFER_THRESHOLD ≤ e.length) ∧
    (runFrames 16000 [[some 0, some 1], [some (1 / 2)]] ⟨[], 0⟩).1.size <
      BUFFER_THRESHOLD :=
  ⟨(accumulator_threshold_invariant 16000 [[some 0, some 1], [some (1 / 2)]]).1,
   (accumulator_threshold_invariant 16000 [[some 0, some 1], [some (1 / 2)]]).2.1⟩

/-- C4: a transient-network remote error is ignored (no state change, no
callback); an unclassified remote error produces exactly one error
callback and one `ERROR` transition (followed only by the voice-stop
teardown); afterwards the fatal latch silences every further error
report. -/
theorem remote_error_classification (st : MgrState) (mT mU : Str)
    (hd : st.isDisconnecting = false) (hf : st.hasReportedFatalError = false)
    (hr : st.isReportingError = false)
    (hT : isTransientMsg mT = true)
    (hUt : isTransientMsg mU = false)
    (hUi : containsSub (("Internal error").data) mU = false) :
    onSessionError mT st = (st, []) ∧
    (onSessionError mU st).2 =
      Out.errorMsg ((("Connection error: ").data) ++ mU) ::
      Out.stateChange CState.ERROR :: st.sources.map Out.stopVoice ∧
    ((onSessionError mU st).2.countP isErrorOut = 1) ∧
    ((onSessionError mU st).2.countP (isStateOut CState.ERROR) = 1) ∧
    (onSessionError mU st).1.hasReportedFatalError = true ∧
    (∀ m', onSessionError m' (onSessionError mU st).1 =
      ((onSessionError mU st).1, [])) ∧
    (∀ m', handleFatalError m' (onSessionError mU st).1 =
      ((onSessionError mU st).1, [])) := by
  obtain ⟨sa, ic, idc, hrf, ire, cnt, lsi, lsr, cit, acc, q, nst, srcs,
    msa, pa, sna, iga, ipr, afa, ica, oca, oaa⟩ := st
  simp only at hd hf hr
  subst hd; subst hf; subst hr
  have hev : (onSessionError mU
      ⟨sa, ic, false, false, false, cnt, lsi, lsr, cit, acc, q, nst, srcs,
        msa, pa, sna, iga, ipr, afa, ica, oca, oaa⟩).2 =
      Out.errorMsg ((("Connection error: ").data) ++ mU) ::
      Out.stateChange CState.ERROR :: srcs.map Out.stopVoice := by
    simp [onSessionError, handleFatalError, stop, hUt, hUi]
  refine ⟨?_, hev, ?_, ?_, ?_, ?_, ?_⟩
  · simp [onSessionError, hT]
  · rw [hev]
    simp only [List.countP_cons, List.countP_map]
    simp [isErrorOut, List.countP_eq_zero, Function.comp]
  · rw [hev]
    simp only [List.countP_cons, List.countP_map]
    simp [isStateOut, List.countP_eq_zero, Function.comp]
  · simp [onSessionError, handleFatalError, stop, hUt, hUi]
  · intro m'
    simp [onSessionError, handleFatalError, stop, hUt, hUi]
  · intro m'
    simp [onSessionError, handleFatalError, stop, hUt, hUi]

/-- Witness for C4 at a concrete connected state, a WebSocket transient
message and an unclassified message. -/
theorem remote_error_classification_witness :
    onSessionError (("WebSocket closed").data) liveState = (liveState, []) ∧
    (onSessionError (("quota exceeded").data) liveState).2 =
      Out.errorMsg ((("Connection error: ").data) ++ ("quota exceeded").data) ::
      Out.stateChange CState.ERROR :: [Out.stopVoice (1, 2)] := by
  have h := remote_error_classification liveState (("WebSocket closed").data)
    (("quota exceeded").data) rfl rfl rfl (by decide) (by decide) (by decide)
  exact ⟨h.1, h.2.1⟩

/-- C1: a first recoverable-internal fault registers exactly one
reconnect with the remembered scenario and rate (one advisory callback,
no fatal message, no `ERROR`), increments the retry counter; the timer
then re-invokes `connect` with that remembered configuration; and a
second consecutive recoverable-internal fault within the same retry
budget escalates to the fatal message instead of registering another
reconnect, after which the timer does nothing. -/
theorem internal_error_bounded_recovery (st : MgrState) (m1 m2 : Str)
    (hd : st.isDisconnecting = false) (hf : st.hasReportedFatalError = false)
    (hr : st.isReportingError = false) (hc : st.internalErrorRetryCount = 0)
    (h1i : containsSub (("Internal error").data) m1 = true)
    (h1t : isTransientMsg m1 = false)
    (h2i : containsSub (("Internal error").data) m2 = true)
    (h2t : isTransientMsg m2 = false) :
    ((onSessionError m1 st).2.filter isReconnectOut =
      [Out.scheduleReconnect st.lastScenarioInstruction st.lastSpeakingRate]) ∧
    ((onSessionError m1 st).2.countP isErrorOut = 1) ∧
    Out.errorMsg internalFatalMsg ∉ (onSessionError m1 st).2 ∧
    Out.stateChange CState.ERROR ∉ (onSessionError m1 st).2 ∧
    (onSessionError m1 st).1.internalErrorRetryCount = 1 ∧
    ((recoveryTimerFire st.lastScenarioInstruction st.lastSpeakingRate
        (onSessionError m1 st).1).2 =
      [Out.stateChange CState.CONNECTING, Out.micRequest]) ∧
    ((recoveryTimerFire st.lastScenarioInstruction st.lastSpeakingRate
        (onSessionError m1 st).1).1.lastScenarioInstruction =
      st.lastScenarioInstruction) ∧
    ((recoveryTimerFire st.lastScenarioInstruction st.lastSpeakingRate
        (onSessionError m1 st).1).1.lastSpeakingRate = st.lastSpeakingRate) ∧
    ((onSessionError m2 (onSessionError m1 st).1).2 =
      [Out.errorMsg internalFatalMsg, Out.stateChange CState.ERROR]) ∧
    ((onSessionError m2 (onSessionError m1 st).1).2.filter isReconnectOut = []) ∧
    ((recoveryTimerFire st.lastScenarioInstruction st.lastSpeakingRate
        (onSessionError m2 (onSessionError m1 st).1).1).2 = []) := by
  obtain ⟨sa, ic, idc, hrf, ire, cnt, lsi, lsr, cit, acc, q, nst, srcs,
    msa, pa, sna, iga, ipr, afa, ica, oca, oaa⟩ := st
  simp only at hd hf hr hc
  subst hd; subst hf; subst hr; subst hc
  have hne : ¬ (hiccupMsg = internalFatalMsg) := by decide
  have hne' : ¬ (internalFatalMsg = hiccupMsg) := by decide
  have hr1 : (onSessionError m1
      ⟨sa, ic, false, false, false, 0, lsi, lsr, cit, acc, q, nst, srcs,
        msa, pa, sna, iga, ipr, afa, ica, oca, oaa⟩) =
      (⟨false, false, false, false, false, 1, lsi, lsr, cit, ⟨[], 0⟩, [], nst,
        [], false, false, false, false, false, false, false, false, oaa⟩,
       srcs.map Out.stopVoice ++
         [Out.stateChange CState.DISCONNECTED, Out.errorMsg hiccupMsg,
          Out.stateChange CState.CONNECTING,
          Out.scheduleReconnect lsi lsr]) := by
    simp [onSessionError, handleInternalErrorRecovery, handleFatalError,
      stop, h1i, h1t, MAX_INTERNAL_ERROR_RETRIES]
  have hr2 : (onSessionError m2
      (⟨false, false, false, false, false, 1, lsi, lsr, cit, ⟨[], 0⟩, [], nst,
        [], false, false, false, false, false, false, false, false, oaa⟩ :
        MgrState)) =
      (⟨false, false, true, true, true, 1, lsi, lsr, cit, ⟨[], 0⟩, [], nst,
        [], false, false, false, false, false, false, false, false, oaa⟩,
       [Out.errorMsg internalFatalMsg, Out.stateChange CState.ERROR]) := by
    simp [onSessionError, handleInternalErrorRecovery, handleFatalError,
      stop, h2i, h2t, MAX_INTERNAL_ERROR_RETRIES]
  rw [hr1]
  refine ⟨?_, ?_, ?_, ?_, rfl, ?_, rfl, rfl, ?_, ?_, ?_⟩
  · simp [List.filter_append, List.filter_map, isReconnectOut, Function.comp]
  · simp [List.countP_append, List.countP_map, List.countP_cons,
      isErrorOut, Function.comp, List.countP_eq_zero]
  · simp [List.mem_append, List.mem_map, hne, hne']
  · simp [List.mem_append, List.mem_map]
  · simp [recoveryTimerFire, connectStart]
  · rw [hr2]
  · rw [hr2]
    simp [isReconnectOut]
  · rw [hr2]
    simp [recoveryTimerFire]

/-- Witness for C1 at a concrete connected state and the literal message
signature. -/
theorem internal_error_bounded_recovery_witness :
    ((onSessionError (("Internal error encountered").data) liveState).2.filter
        isReconnectOut =
      [Out.scheduleReconnect (some (("scenario").data)) (3 / 2)]) ∧
    ((onSessionError (("Internal error again").data)
        (onSessionError (("Internal error encountered").data) liveState).1).2 =
      [Out.errorMsg internalFatalMsg, Out.stateChange CState.ERROR]) := by
  have h := internal_error_bounded_recovery liveState
    (("Internal error encountered").data) (("Internal error again").data)
    rfl rfl rfl rfl (by decide) (by decide) (by decide) (by decide)
  exact ⟨h.1, h.2.2.2.2.2.2.2.2.1⟩


/-- The transcript step emits at most a transcript event, never a
subtitle or playback event. -/
theorem transcriptStep_events (it : Option Str) (tc : Bool) (cur : Str) :
    ((transcriptStep it tc cur).2.filter isSubtitleOut = []) ∧
    ((transcriptStep it tc cur).2.filter isPlaybackOut = []) := by
  cases it <;>
    (dsimp only [transcriptStep]
     split <;> simp [isSubtitleOut, isPlaybackOut])

/-- The audio step either does nothing or schedules exactly one voice at
the tail of the voice list with one playback event. -/
theorem audioStep_cases (d : Option Str) (t : ℚ) (c a conn : Bool) (ns : ℚ)
    (srcs : List Voice) :
    (audioStep d t c a conn ns srcs = (ns, srcs, [])) ∨
    (∃ s du, audioStep d t c a conn ns srcs =
      (s + du, srcs ++ [(s, du)], [Out.playback s du])) := by
  cases d with
  | none => exact Or.inl rfl
  | some d =>
      by_cases hg : d = [] ∨ c = false ∨ a = false ∨ conn = false
      · exact Or.inl (by dsimp only [audioStep]; rw [if_pos hg])
      · cases hb : base64ToBytes d with
        | none =>
            refine Or.inl ?_
            dsimp only [audioStep]
            rw [if_neg hg, hb]
        | some bytes =>
            by_cases h2 : bytes = [] ∨ bytes.length % 2 ≠ 0
            · refine Or.inl ?_
              dsimp only [audioStep]
              rw [if_neg hg, hb]
              exact if_pos h2
            · refine Or.inr ⟨max ns t, ((bytes.length / 2 : Nat) : ℚ) / 24000, ?_⟩
              dsimp only [audioStep]
              rw [if_neg hg, hb]
              exact if_neg h2

/-- The audio step under the guards of the source's success path. -/
theorem audioStep_success (d : Str) (t : ℚ) (ns : ℚ) (srcs : List Voice)
    (bytes : List Nat) (hdne : d ≠ []) (hb : base64ToBytes d = some bytes)
    (hbne : bytes ≠ []) (heven : bytes.length % 2 = 0) :
    audioStep (some d) t true true true ns srcs =
      (max ns t + ((bytes.length / 2 : Nat) : ℚ) / 24000,
       srcs ++ [(max ns t, ((bytes.length / 2 : Nat) : ℚ) / 24000)],
       [Out.playback (max ns t) (((bytes.length / 2 : Nat) : ℚ) / 24000)]) := by
  dsimp only [audioStep]
  rw [if_neg (by simp [hdne]), hb]
  exact if_neg (by simp [hbne, heven])

/-- The events of the per-invocation loop: exactly the verbatim subtitle
deliveries of the `update_subtitles` invocations, in invocation order,
and no playback events. -/
theorem toolEvents_filter (fcs : List FunctionCall) :
    ((fcs.map toolEvent).flatten.filter isSubtitleOut =
      (fcs.filter (fun fc => fc.name = ("update_subtitles").data)).map
        (fun fc => Out.subtitle fc.args)) ∧
    ((fcs.map toolEvent).flatten.filter isPlaybackOut = []) := by
  induction fcs with
  | nil => simp
  | cons fc fcs ih =>
      simp only [List.map_cons, List.flatten_cons, List.filter_append,
        List.filter_cons]
      constructor
      · rw [ih.1]
        by_cases h : fc.name = ("update_subtitles").data
        · simp [toolEvent, h, isSubtitleOut]
        · by_cases h2 : fc.name = ("provide_pronunciation_feedback").data
          · simp [toolEvent, h, h2, isSubtitleOut]
          · simp [toolEvent, h, h2, isSubtitleOut]
      · rw [ih.2]
        unfold toolEvent
        split
        · simp [isPlaybackOut]
        · split <;> simp [isPlaybackOut]

/-- With at least one invocation, the tool step appends the single
acknowledgment batch to the queue. -/
theorem toolStep_queue (fcs : List FunctionCall) (q : List SendItem)
    (hne : fcs ≠ []) :
    (toolStep (some fcs) q).1 = q ++ [SendItem.toolResponses (fcs.map mkAck)] := by
  dsimp only [toolStep]
  rw [if_neg (by simp [hne])]

/-- The tool step's event list is the per-invocation loop's event
list. -/
theorem toolStep_events (fcs : List FunctionCall) (q : List SendItem) :
    (toolStep (some fcs) q).2 = (fcs.map toolEvent).flatten := rfl

/-- Stopping voices never produces subtitle events. -/
theorem filter_stopVoice_subtitle (vs : List Voice) :
    (vs.map Out.stopVoice).filter isSubtitleOut = [] := by
  induction vs with
  | nil => rfl
  | cons v vs ih => simp [isSubtitleOut, ih]

/-- Stopping voices never produces playback events. -/
theorem filter_stopVoice_playback (vs : List Voice) :
    (vs.map Out.stopVoice).filter isPlaybackOut = [] := by
  induction vs with
  | nil => rfl
  | cons v vs ih => simp [isPlaybackOut, ih]

/-- C5: an inbound message carrying tool invocations appends exactly one
batch of acknowledgment records to the uplink queue — one record per
invocation, echoing its id and name with the generic success result, in
invocation order, after everything already queued — and the subtitle
callback fires verbatim for exactly the `update_subtitles`
invocations. -/
theorem toolcall_acknowledgment_order (st : MgrState) (m : ServerMessage)
    (t : ℚ) (fcs : List FunctionCall)
    (hd : st.isDisconnecting = false) (hf : st.hasReportedFatalError = false)
    (htc : m.toolCall = some fcs) (hne : fcs ≠ []) :
    ((handleMessage m t st).1.audioSendQueue =
      st.audioSendQueue ++ [SendItem.toolResponses (fcs.map mkAck)]) ∧
    (∀ fc ∈ fcs, mkAck fc =
      { id := fc.id, name := fc.name, result := ("ok").data }) ∧
    ((handleMessage m t st).2.filter isSubtitleOut =
      (fcs.filter (fun fc => fc.name = ("update_subtitles").data)).map
        (fun fc => Out.subtitle fc.args)) := by
  have hg : (st.isDisconnecting || st.hasReportedFatalError) = false := by
    rw [hd, hf]; rfl
  have hq := toolStep_queue fcs st.audioSendQueue hne
  have hts := transcriptStep_events m.inputTranscription m.turnComplete
    st.currentInputTranscription
  refine ⟨?_, fun fc _ => rfl, ?_⟩
  · unfold handleMessage
    rw [hg, if_neg Bool.false_ne_true, htc]
    split <;> simp [hq]
  · unfold handleMessage
    rw [hg, if_neg Bool.false_ne_true, htc]
    rcases audioStep_cases m.audioData t st.outputCtxActive
        st.outputAnalyserActive st.isConnected st.nextStartTime st.sources with
      hau | ⟨s, du, hau⟩ <;>
      split <;>
      simp only [hau, toolStep_events, List.filter_append, hts.1,
        (toolEvents_filter fcs).1, filter_stopVoice_subtitle,
        List.filter_cons, List.filter_nil, List.map_append,
        List.append_nil, List.nil_append, List.append_assoc] <;>
      simp [isSubtitleOut, filter_stopVoice_subtitle]

/-- The end-to-end subtitle scenario message: one `update_subtitles`
invocation with the 你好 payload. -/
def scenarioCFc : FunctionCall :=
  { id := ("1").data, name := ("update_subtitles").data,
    args := [(("hanzi").data, ("你好").data),
             (("pinyin").data, ("nǐ hǎo").data),
             (("english").data, ("hello").data)] }

/-- The scenario message carrying only that invocation. -/
def scenarioCMsg : ServerMessage :=
  { inputTranscription := none, turnComplete := false,
    toolCall := some [scenarioCFc], audioData := none, interrupted := false }

/-- A live state with one audio chunk already queued. -/
def scenarioCState : MgrState :=
  { liveState with
    audioSendQueue := [SendItem.audioChunk (createPcmBlob [some 0])] }

/-- Witness for C5: the scenario message produces its verbatim subtitle
callback and one acknowledgment batch placed after the queued audio
chunk. -/
theorem toolcall_acknowledgment_order_witness :
    ((handleMessage scenarioCMsg 0 scenarioCState).1.audioSendQueue =
      [SendItem.audioChunk (createPcmBlob [some 0]),
       SendItem.toolResponses [FunctionResponse.mk (("1").data)
         (("update_subtitles").data) (("ok").data)]]) ∧
    ((handleMessage scenarioCMsg 0 scenarioCState).2.filter isSubtitleOut =
      [Out.subtitle scenarioCFc.args]) := by
  have h := toolcall_acknowledgment_order scenarioCState scenarioCMsg 0
    [scenarioCFc] rfl rfl rfl (by simp)
  refine ⟨?_, ?_⟩
  · rw [h.1]; rfl
  · rw [h.2.2]; rfl

/-- The tool step never emits playback events. -/
theorem toolStep_no_playback (tc : Option (List FunctionCall)) (q : List SendItem) :
    (toolStep tc q).2.filter isPlaybackOut = [] := by
  cases tc with
  | none => rfl
  | some fcs => rw [toolStep_events]; exact (toolEvents_filter fcs).2

/-- Evaluation of `handleMessage` on an accepted message with the interrupted flag:
the phase-4 cleanup overrides the earlier steps' state effects. -/
theorem handleMessage_interrupted_eq (m : ServerMessage) (t : ℚ) (st : MgrState)
    (hd : st.isDisconnecting = false) (hf : st.hasReportedFatalError = false)
    (hint : m.interrupted = true) :
    handleMessage m t st =
      ({ st with
         currentInputTranscription := [],
         audioSendQueue := (toolStep m.toolCall st.audioSendQueue).1,
         nextStartTime := 0, sources := [], acc := ⟨[], 0⟩ },
       (transcriptStep m.inputTranscription m.turnComplete
         st.currentInputTranscription).2 ++
       ((toolStep m.toolCall st.audioSendQueue).2 ++
        ((audioStep m.audioData t st.outputCtxActive st.outputAnalyserActive
           st.isConnected st.nextStartTime st.sources).2.2 ++
         (audioStep m.audioData t st.outputCtxActive st.outputAnalyserActive
           st.isConnected st.nextStartTime st.sources).2.1.map Out.stopVoice))) := by
  have hg : (st.isDisconnecting || st.hasReportedFatalError) = false := by
    rw [hd, hf]; rfl
  unfold handleMessage
  rw [hg, if_neg Bool.false_ne_true, hint]
  simp

/-- Evaluation of `handleMessage` on an accepted message without the interrupted
flag. -/
theorem handleMessage_normal_eq (m : ServerMessage) (t : ℚ) (st : MgrState)
    (hd : st.isDisconnecting = false) (hf : st.hasReportedFatalError = false)
    (hint : m.interrupted = false) :
    handleMessage m t st =
      ({ st with
         currentInputTranscription := (transcriptStep m.inputTranscription
           m.turnComplete st.currentInputTranscription).1,
         audioSendQueue := (toolStep m.toolCall st.audioSendQueue).1,
         nextStartTime := (audioStep m.audioData t st.outputCtxActive
           st.outputAnalyserActive st.isConnected st.nextStartTime st.sources).1,
         sources := (audioStep m.audioData t st.outputCtxActive
           st.outputAnalyserActive st.isConnected st.nextStartTime st.sources).2.1 },
       (transcriptStep m.inputTranscription m.turnComplete
         st.currentInputTranscription).2 ++
       ((toolStep m.toolCall st.audioSendQueue).2 ++
        (audioStep m.audioData t st.outputCtxActive st.outputAnalyserActive
          st.isConnected st.nextStartTime st.sources).2.2)) := by
  have hg : (st.isDisconnecting || st.hasReportedFatalError) = false := by
    rw [hd, hf]; rfl
  unfold handleMessage
  rw [hg, if_neg Bool.false_ne_true, hint]
  simp

/-- Filtered playback events of an accepted message whose audio chunk
passes the decode guards: exactly one scheduling at
`max nextStartTime currentTime`. -/
theorem handleMessage_playback_filter (st : MgrState) (m : ServerMessage)
    (t : ℚ) (d : Str) (bytes : List Nat)
    (hd : st.isDisconnecting = false) (hf : st.hasReportedFatalError = false)
    (had : m.audioData = some d) (hdne : d ≠ [])
    (hb : base64ToBytes d = some bytes) (hbne : bytes ≠ [])
    (heven : bytes.length % 2 = 0)
    (hctx : st.outputCtxActive = true) (han : st.outputAnalyserActive = true)
    (hconn : st.isConnected = true) :
    (handleMessage m t st).2.filter isPlaybackOut =
      [Out.playback (max st.nextStartTime t)
        (((bytes.length / 2 : Nat) : ℚ) / 24000)] := by
  have hg : (st.isDisconnecting || st.hasReportedFatalError) = false := by
    rw [hd, hf]; rfl
  have hau := audioStep_success d t st.nextStartTime st.sources bytes hdne hb
    hbne heven
  have hts := transcriptStep_events m.inputTranscription m.turnComplete
    st.currentInputTranscription
  unfold handleMessage
  rw [hg, if_neg Bool.false_ne_true, had, hctx, han, hconn, hau]
  split <;>
    simp only [List.filter_append, hts.2, toolStep_no_playback,
      List.map_append, filter_stopVoice_playback, List.filter_cons,
      List.filter_nil, List.append_assoc, List.nil_append, List.append_nil] <;>
    simp [isPlaybackOut, filter_stopVoice_playback]

/-- C7: an accepted inbound audio chunk is scheduled to start at
`max nextStartTime sinkCurrentTime` — never earlier than the previous
chunk's end — and `nextStartTime` then advances by exactly the chunk's
duration, with the voice appended in arrival order. -/
theorem playback_gapless_scheduling (st : MgrState) (m : ServerMessage)
    (t : ℚ) (d : Str) (bytes : List Nat)
    (hd : st.isDisconnecting = false) (hf : st.hasReportedFatalError = false)
    (had : m.audioData = some d) (hdne : d ≠ [])
    (hb : base64ToBytes d = some bytes) (hbne : bytes ≠ [])
    (heven : bytes.length % 2 = 0)
    (hctx : st.outputCtxActive = true) (han : st.outputAnalyserActive = true)
    (hconn : st.isConnected = true) (hni : m.interrupted = false) :
    ((handleMessage m t st).2.filter isPlaybackOut =
      [Out.playback (max st.nextStartTime t)
        (((bytes.length / 2 : Nat) : ℚ) / 24000)]) ∧
    ((handleMessage m t st).1.nextStartTime =
      max st.nextStartTime t + ((bytes.length / 2 : Nat) : ℚ) / 24000) ∧
    ((handleMessage m t st).1.sources =
      st.sources ++ [(max st.nextStartTime t,
        ((bytes.length / 2 : Nat) : ℚ) / 24000)]) ∧
    st.nextStartTime ≤ max st.nextStartTime t := by
  have hau := audioStep_success d t st.nextStartTime st.sources bytes hdne hb
    hbne heven
  have heq := handleMessage_normal_eq m t st hd hf hni
  refine ⟨handleMessage_playback_filter st m t d bytes hd hf had hdne hb hbne
    heven hctx han hconn, ?_, ?_, le_max_left _ _⟩
  · rw [heq]
    simp only [had, hctx, han, hconn] at *
    rw [hau]
  · rw [heq]
    simp only [had, hctx, han, hconn] at *
    rw [hau]

/-- A two-sample silent PCM chunk in canonical base64. -/
def tinyAudioB64 : Str := ("AAA=").data

/-- Witness for C7: a concrete chunk of one 16-bit frame scheduled on the
live state at sink time 10. -/
theorem playback_gapless_scheduling_witness :
    ((handleMessage
        { inputTranscription := none, turnComplete := false, toolCall := none,
          audioData := some tinyAudioB64, interrupted := false } 10
        liveState).2.filter isPlaybackOut =
      [Out.playback 10 ((1 : ℚ) / 24000)]) ∧
    ((handleMessage
        { inputTranscription := none, turnComplete := false, toolCall := none,
          audioData := some tinyAudioB64, interrupted := false } 10
        liveState).1.nextStartTime = 10 + (1 : ℚ) / 24000) := by
  have h := playback_gapless_scheduling liveState
    { inputTranscription := none, turnComplete := false, toolCall := none,
      audioData := some tinyAudioB64, interrupted := false } 10
    tinyAudioB64 [0, 0] rfl rfl rfl (by decide) (by decide) (by decide)
    (by decide) rfl rfl rfl rfl
  have hmax : max liveState.nextStartTime (10 : ℚ) = 10 := by
    rw [show liveState.nextStartTime = 3 from rfl]
    norm_num
  constructor
  · rw [h.1, hmax]
    norm_num
  · rw [h.2.1, hmax]
    norm_num

/-- C6: after an accepted message carrying the interrupted flag, every
previously live voice has been stopped, the voice set is empty, the
scheduling clock is zero, the transcript buffer and the capture
accumulator are empty; consequently an audio chunk accepted on a
following message starts exactly at the sink's current time. -/
theorem interruption_cleanup (st : MgrState) (m : ServerMessage) (t : ℚ)
    (hd : st.isDisconnecting = false) (hf : st.hasReportedFatalError = false)
    (hint : m.interrupted = true) :
    ((handleMessage m t st).1.sources = []) ∧
    ((handleMessage m t st).1.nextStartTime = 0) ∧
    ((handleMessage m t st).1.currentInputTranscription = []) ∧
    ((handleMessage m t st).1.acc = ⟨[], 0⟩) ∧
    (∀ v ∈ st.sources, Out.stopVoice v ∈ (handleMessage m t st).2) ∧
    (∀ (m2 : ServerMessage) (t2 : ℚ) (d : Str) (bytes : List Nat),
      0 ≤ t2 → m2.audioData = some d → d ≠ [] →
      base64ToBytes d = some bytes → bytes ≠ [] → bytes.length % 2 = 0 →
      st.outputCtxActive = true → st.outputAnalyserActive = true →
      st.isConnected = true →
      (handleMessage m2 t2 (handleMessage m t st).1).2.filter isPlaybackOut =
        [Out.playback t2 (((bytes.length / 2 : Nat) : ℚ) / 24000)]) := by
  have heq := handleMessage_interrupted_eq m t st hd hf hint
  refine ⟨by rw [heq], by rw [heq], by rw [heq], by rw [heq], ?_, ?_⟩
  · intro v hv
    rw [heq]
    simp only [List.mem_append, List.mem_map]
    rcases audioStep_cases m.audioData t st.outputCtxActive
        st.outputAnalyserActive st.isConnected st.nextStartTime st.sources with
      hau | ⟨s, du, hau⟩
    · rw [hau]
      exact Or.inr (Or.inr (Or.inr ⟨v, hv, rfl⟩))
    · rw [hau]
      exact Or.inr (Or.inr (Or.inr ⟨v, List.mem_append_left _ hv, rfl⟩))
  · intro m2 t2 d bytes ht2 had hdne hb hbne heven hctx han hconn
    have h1 : (handleMessage m t st).1.isDisconnecting = false := by
      rw [heq]; exact hd
    have h2 : (handleMessage m t st).1.hasReportedFatalError = false := by
      rw [heq]; exact hf
    have h3 : (handleMessage m t st).1.outputCtxActive = true := by
      rw [heq]; exact hctx
    have h4 : (handleMessage m t st).1.outputAnalyserActive = true := by
      rw [heq]; exact han
    have h5 : (handleMessage m t st).1.isConnected = true := by
      rw [heq]; exact hconn
    have h6 : (handleMessage m t st).1.nextStartTime = 0 := by rw [heq]
    have hfil := handleMessage_playback_filter (handleMessage m t st).1 m2 t2
      d bytes h1 h2 had hdne hb hbne heven h3 h4 h5
    rw [hfil, h6, max_eq_right ht2]

/-- Witness for C6: scenario D — an interrupt-only message on the live
state (one active voice) empties the voice set and resets the clock, and
a following one-frame chunk at sink time 7 starts exactly at 7. -/
theorem interruption_cleanup_witness :
    ((handleMessage
        { inputTranscription := none, turnComplete := false, toolCall := none,
          audioData := none, interrupted := true } 0 liveState).1.sources = []) ∧
    ((handleMessage
        { inputTranscription := none, turnComplete := false, toolCall := none,
          audioData := none, interrupted := true } 0
        liveState).1.nextStartTime = 0) ∧
    (Out.stopVoice (1, 2) ∈ (handleMessage
        { inputTranscription := none, turnComplete := false, toolCall := none,
          audioData := none, interrupted := true } 0 liveState).2) ∧
    ((handleMessage
        { inputTranscription := none, turnComplete := false, toolCall := none,
          audioData := some tinyAudioB64, interrupted := false } 7
        (handleMessage
          { inputTranscription := none, turnComplete := false, toolCall := none,
            audioData := none, interrupted := true } 0
          liveState).1).2.filter isPlaybackOut =
      [Out.playback 7 ((1 : ℚ) / 24000)]) := by
  have h := interruption_cleanup liveState
    { inputTranscription := none, turnComplete := false, toolCall := none,
      audioData := none, interrupted := true } 0 rfl rfl rfl
  refine ⟨h.1, h.2.1, ?_, ?_⟩
  · exact h.2.2.2.2.1 (1, 2) (by decide)
  · have := h.2.2.2.2.2
      { inputTranscription := none, turnComplete := false, toolCall := none,
        audioData := some tinyAudioB64, interrupted := false } 7
      tinyAudioB64 [0, 0] (by norm_num) rfl (by decide) (by decide)
      (by decide) (by decide) rfl rfl rfl
    simpa using this

/-- Every 6-bit value's alphabet character looks up back to itself. -/
theorem b64Index_b64Char : ∀ n < 64, b64Index (b64Char n) = some n := by decide

/-- No alphabet character is the padding character. -/
theorem b64Char_ne_pad : ∀ n < 64, b64Char n ≠ '=' := by decide

/-- Decoding inverts encoding on byte lists. -/
theorem b64_decode_encode (b : List Nat) (h : ∀ x ∈ b, x < 256) :
    b64DecodeChars (b64EncodeCodes b) = some b := by
  induction b using b64EncodeCodes.induct with
  | case1 => rfl
  | case2 a =>
      have ha : a < 256 := h a (by simp)
      simp only [b64EncodeCodes, b64DecodeChars]
      rw [b64Index_b64Char (a / 4) (by omega),
        b64Index_b64Char (a % 4 * 16) (by omega)]
      dsimp only []
      simp only [if_true, and_self, Option.some.injEq, List.cons.injEq,
        and_true, eq_self_iff_true]
      omega
  | case3 a b =>
      have ha : a < 256 := h a (by simp)
      have hb : b < 256 := h b (by simp)
      simp only [b64EncodeCodes, b64DecodeChars]
      rw [b64Index_b64Char (a / 4) (by omega),
        b64Index_b64Char (a % 4 * 16 + b / 16) (by omega)]
      dsimp only []
      rw [if_neg (b64Char_ne_pad (b % 16 * 4) (by omega))]
      rw [b64Index_b64Char (b % 16 * 4) (by omega)]
      dsimp only []
      simp only [if_true, Option.some.injEq, List.cons.injEq, and_true,
        eq_self_iff_true]
      omega
  | case4 a b c rest ih =>
      have ha : a < 256 := h a (by simp)
      have hb : b < 256 := h b (by simp)
      have hc : c < 256 := h c (by simp)
      have hrest : ∀ x ∈ rest, x < 256 := fun x hx => h x (by simp [hx])
      simp only [b64EncodeCodes, b64DecodeChars]
      rw [b64Index_b64Char (a / 4) (by omega),
        b64Index_b64Char (a % 4 * 16 + b / 16) (by omega)]
      dsimp only []
      rw [if_neg (b64Char_ne_pad (b % 16 * 4 + c / 64) (by omega))]
      rw [b64Index_b64Char (b % 16 * 4 + c / 64) (by omega)]
      dsimp only []
      rw [if_neg (b64Char_ne_pad (c % 64) (by omega))]
      rw [b64Index_b64Char (c % 64) (by omega)]
      dsimp only []
      rw [ih hrest]
      dsimp only [Option.map]
      simp only [Option.some.injEq, List.cons.injEq, and_true,
        eq_self_iff_true]
      omega

/-- C9: the codec's base64 functions round-trip — decoding an encoded
byte array yields exactly the original bytes. -/
theorem base64_roundtrip (b : List Nat) (h : ∀ x ∈ b, x < 256) :
    base64ToBytes (bytesToBase64 b) = some b :=
  b64_decode_encode b h

/-- Witness for C9 on a concrete byte array covering all padding
shapes. -/
theorem base64_roundtrip_witness :
    base64ToBytes (bytesToBase64 [0, 1, 127, 128, 255]) =
      some [0, 1, 127, 128, 255] :=
  base64_roundtrip [0, 1, 127, 128, 255] (by decide)

/-- Witness for C3 at the concrete live state: teardown releases
everything and reports `DISCONNECTED` after stopping the one live
voice. -/
theorem stop_safe_teardown_witness :
    (stop liveState).1.mediaStreamActive = false ∧
    (stop liveState).1.sources = [] ∧
    (stop liveState).2 =
      [Out.stopVoice (1, 2), Out.stateChange CState.DISCONNECTED] := by
  have h := stop_safe_teardown liveState
  refine ⟨h.1, h.2.1, ?_⟩
  rw [h.2.2.2.2.2.1]
  rfl
